import Mathlib

/-!
Verification development for the CATMAID entity-history (temporal versioning)
engine, embedded from
`django/applications/catmaid/migrations/0004_add_history_table_support.py`.
The PL/pgSQL functions `history_table_name`, `create_history_table`,
`drop_history_table` and the trigger function `update_history_of_row` are
translated into executable Lean definitions; the theorems below settle the
spec's claims about them.
-/

/-! ## Naming: `history_table_name` (migration lines 19-26)

The SQL is `translate(format('%I_history', live_table_name), '"', '')`:
the live name is quoted as an identifier (`%I`), `_history` is appended and
then every double-quote character is removed.  `%I` leaves a name unquoted
exactly when it is a safe unquoted identifier; otherwise it wraps the name
in double quotes and doubles any embedded quote.  (The real `quote_ident`
also quotes reserved SQL keywords and uppercase letters; the names appearing
in this development are lowercase non-keywords, for which the simpler
predicate below agrees with PostgreSQL.) -/

def isSafeIdentChar (c : Char) : Bool :=
  c.isLower || c.isDigit || c == '_'

def isSafeIdent (s : String) : Bool :=
  !s.isEmpty && s.data.all isSafeIdentChar &&
    !(match s.data.head? with
      | some c => c.isDigit
      | none => false)

/-- `format('%I', s)`: quote `s` as an SQL identifier, doubling any embedded
double quote, unless it is already a safe unquoted identifier. -/
def quoteIdent (s : String) : String :=
  if isSafeIdent s then s
  else "\"" ++ String.mk (s.data.flatMap (fun c => if c = '"' then ['"', '"'] else [c])) ++ "\""

/-- `translate(s, '"', '')`: remove every double-quote character. -/
def translateRemoveQuotes (s : String) : String :=
  String.mk (s.data.filter (fun c => decide (c ≠ '"')))

/-- Migration lines 19-26: name of the history table of a live table. -/
def history_table_name (live : String) : String :=
  translateRemoveQuotes (quoteIdent live ++ "_history")

/-! ## Capture protocol: `update_history_of_row` (migration lines 288-328)

A history row carries a copy of the live row's columns (identity column `id`
plus remaining column values abstracted as `data : α`) and the `sys_period`
validity range `[sys_from, sys_to)`, where `sys_to = none` is an open (still
current) interval.  Timestamps are `Nat`. -/

structure LRow (α : Type) where
  id : Nat
  data : α
deriving DecidableEq

structure HRow (α : Type) where
  id : Nat
  data : α
  sys_from : Nat
  sys_to : Option Nat
deriving DecidableEq

/-- The trigger operation together with the row images PostgreSQL hands the
trigger: `OLD` for UPDATE/DELETE, `NEW` for INSERT/UPDATE. -/
inductive TgOp (α : Type) where
  | insert (new : LRow α)
  | update (old new : LRow α)
  | delete (old : LRow α)
deriving DecidableEq

/-- Migration lines 302-306: `UPDATE <history> SET sys_period =
tstzrange(lower(sys_period), current_timestamp) WHERE id = OLD.id`.
Note the SQL has no `upper(sys_period) IS NULL` condition: every history row
whose `id` matches is rewritten, not only the open one. -/
def closeRowsOfId {α : Type} (rows : List (HRow α)) (oldId : Nat) (now : Nat) :
    List (HRow α) :=
  rows.map (fun r => if r.id = oldId then { r with sys_to := some now } else r)

/-- Migration lines 313-321: insert a copy of `NEW` with
`sys_period = tstzrange(current_timestamp, null)`. -/
def insertHistoryRow {α : Type} (rows : List (HRow α)) (new : LRow α) (now : Nat) :
    List (HRow α) :=
  rows ++ [{ id := new.id, data := new.data, sys_from := now, sys_to := none }]

/-- Migration lines 288-328, trigger function `update_history_of_row`:
on UPDATE/DELETE close the rows of `OLD.id`, on INSERT/UPDATE insert the new
image as an open row, and `RETURN NULL` (second component).  The `TG_NARGS <> 3`
guard is not modelled: the trigger installed by `create_history_table` always
passes exactly three arguments. -/
def update_history_of_row {α : Type} (op : TgOp α) (now : Nat)
    (rows : List (HRow α)) : List (HRow α) × Option (LRow α) :=
  let rows1 := match op with
    | .update old _ => closeRowsOfId rows old.id now
    | .delete old => closeRowsOfId rows old.id now
    | .insert _ => rows
  let rows2 := match op with
    | .insert new => insertHistoryRow rows1 new now
    | .update _ new => insertHistoryRow rows1 new now
    | .delete _ => rows1
  (rows2, none)

/-- Number of open (`sys_to = none`) history rows for identity `k`. -/
def openCount {α : Type} (rows : List (HRow α)) (k : Nat) : Nat :=
  rows.countP (fun r => decide (r.id = k ∧ r.sys_to = none))

/-! ## Live table and capture state

The live tables versioned by the migration are Django tables whose primary
key is the `id` column; a sequence of mutations the trigger can observe is
therefore constrained by that key: an INSERT requires the id to be absent
from the live table, an UPDATE/DELETE requires the OLD row's id to be
present, and an UPDATE may only move a row to an id that is not otherwise
taken. -/

structure CapState (α : Type) where
  live : List (LRow α)
  hist : List (HRow α)

def liveIds {α : Type} (rows : List (LRow α)) : List Nat :=
  rows.map (fun r => r.id)

/-- Effect of the live mutation itself on the live table's rows. -/
def liveApply {α : Type} (op : TgOp α) (rows : List (LRow α)) : List (LRow α) :=
  match op with
  | .insert n => rows ++ [n]
  | .update o n => rows.map (fun r => if r.id = o.id then n else r)
  | .delete o => rows.filter (fun r => decide (r.id ≠ o.id))

/-- Primary-key discipline of the live table (see section comment). -/
def ValidOp {α : Type} (s : CapState α) : TgOp α → Prop
  | .insert n => n.id ∉ liveIds s.live
  | .update o n => o.id ∈ liveIds s.live ∧ (n.id = o.id ∨ n.id ∉ liveIds s.live)
  | .delete o => o.id ∈ liveIds s.live

/-- One mutation against the live table plus its AFTER-trigger capture. -/
def capStep {α : Type} (s : CapState α) (op : TgOp α) (now : Nat) : CapState α :=
  { live := liveApply op s.live
    hist := (update_history_of_row op now s.hist).1 }

/-- States reachable from live rows `live0` and an empty history by valid
mutations (the history table starts empty when versioning is installed). -/
inductive CapReach {α : Type} (live0 : List (LRow α)) : CapState α → Prop where
  | init : CapReach live0 { live := live0, hist := [] }
  | step {s : CapState α} {op : TgOp α} {now : Nat} :
      CapReach live0 s → ValidOp s op → CapReach live0 (capStep s op now)

/-- Invariant I1 strengthened for induction: each identity has at most one
open history row, and identities absent from the live table have none. -/
def CapInv {α : Type} (s : CapState α) : Prop :=
  ∀ k, openCount s.hist k ≤ 1 ∧ (k ∉ liveIds s.live → openCount s.hist k = 0)

/-! ## Database-level view of a mutation and its AFTER trigger

A database maps table names to row lists, live and history tables in their
own catalogs.  A mutation against live table `t` applies the live change and,
when a capture trigger is installed, fires `update_history_of_row` against
the history table named in the trigger's arguments (`TG_ARGV[1]`, set to
`history_table_name t` at installation, migration lines 188-192). -/

structure Database (α : Type) where
  liveTables : String → List (LRow α)
  histTables : String → List (HRow α)

def applyLiveMutation {α : Type} (db : Database α) (t : String) (op : TgOp α) :
    Database α :=
  { db with
    liveTables := fun m => if m = t then liveApply op (db.liveTables m) else db.liveTables m }

/-- Fire the trigger: both of its statements address only `TG_ARGV[1]`
(the history table); the second component is the function's return value. -/
def fireCapture {α : Type} (db : Database α) (histName : String) (op : TgOp α)
    (now : Nat) : Database α × Option (LRow α) :=
  let res := update_history_of_row op now (db.histTables histName)
  ({ db with histTables := fun m => if m = histName then res.1 else db.histTables m },
   res.2)

/-- A mutation of live table `t`, with (`capture = some histName`) or without
(`capture = none`) an installed capture trigger. -/
def mutate {α : Type} (db : Database α) (t : String) (op : TgOp α) (now : Nat)
    (capture : Option String) : Database α :=
  let db1 := applyLiveMutation db t op
  match capture with
  | none => db1
  | some h => (fireCapture db1 h op now).1

/-! ## History synthesizer: `create_history_table` (migration lines 51-223)

The mutable state is the registry table `catmaid_history_table` (primary key
`history_table_name`), the set of existing history tables, the inheritance
links between history tables (`pg_inherits` rows created by `INHERITS`), and
the set of live tables carrying the capture trigger.  The read-only catalog
of live tables — their existence and their parents as reported by the
`catmaid_inheritening_tables` view — is a fixed `World`.  Column nullability,
the `sys_period` column and its index (lines 146-184) change only the shape
of a history table, not this state, and are not tracked.  A PL/pgSQL
exception aborts the enclosing transaction, so an `Except.error` result
leaves no state behind.  Recursion over the parent chain is fuelled;
`pg_inherits` is acyclic, so any fuel past the chain depth is enough. -/

structure World where
  liveExists : String → Bool
  parents : String → List String

structure SynthState where
  registry : List (String × String)
  histTables : List String
  histInherits : List (String × String)
  triggers : List String
deriving DecidableEq

inductive SynthErr where
  | outOfFuel
  | undefinedTable
  | unsupportedInheritance
  | duplicateTrigger
  | uniqueViolation
deriving DecidableEq

def emptySynthState : SynthState :=
  { registry := [], histTables := [], histInherits := [], triggers := [] }

/-- Migration lines 85-86: is a history table of this name registered? -/
def registeredB (s : SynthState) (h : String) : Bool :=
  s.registry.any (fun e => decide (e.1 = h))

/-- Migration lines 126-144: `CREATE TABLE IF NOT EXISTS`, with `INHERITS`
when the parent lookup produced a row. -/
def tableCreateStep (h : String) (pinfo : Option String) (s : SynthState) :
    SynthState :=
  if h ∈ s.histTables then s
  else
    { s with
      histTables := s.histTables ++ [h]
      histInherits :=
        match pinfo with
        | some p => s.histInherits ++ [(h, history_table_name p)]
        | none => s.histInherits }

/-- Migration lines 187-196: `CREATE TRIGGER` (no `IF NOT EXISTS`; duplicate
object aborts) followed by the registry `INSERT` (primary-key violation
aborts). -/
def triggerAndRegisterStep (h live : String) (s : SynthState) :
    Except SynthErr SynthState :=
  if live ∈ s.triggers then Except.error SynthErr.duplicateTrigger
  else
    let s3 := { s with triggers := s.triggers ++ [live] }
    if registeredB s3 h then Except.error SynthErr.uniqueViolation
    else Except.ok { s3 with registry := s3.registry ++ [(h, live)] }

/-- Migration lines 126-220: everything after the parent walk. -/
def finishCreate (h live : String) (createTrg : Bool) (pinfo : Option String)
    (s : SynthState) : Except SynthErr SynthState :=
  let s2 := tableCreateStep h pinfo s
  if createTrg then triggerAndRegisterStep h live s2 else Except.ok s2

/-- Migration lines 51-223, `create_history_table(schema, live, create_triggers,
copy_inheritance)` with the schema fixed to `public` as in the migration's own
calls.  Order of effects follows the source: the `regclass` cast of the live
name (line 79), the registered-name early return (lines 85-89), the parent
lookup with `TOO_MANY_ROWS` aborting (lines 105-116), the recursive call for a
single parent — which the source makes with `create_triggers = TRUE`
(line 121) — and then table creation, trigger installation and registration. -/
def create_history_table (W : World) :
    Nat → String → Bool → Bool → SynthState → Except SynthErr SynthState
  | 0, _, _, _, _ => Except.error SynthErr.outOfFuel
  | Nat.succ fuel, live, createTrg, copyInh, s =>
    if W.liveExists live = false then Except.error SynthErr.undefinedTable
    else
      if registeredB s (history_table_name live) then Except.ok s
      else
        if copyInh then
          match W.parents live with
          | [] => finishCreate (history_table_name live) live createTrg none s
          | [p] =>
            match create_history_table W fuel p true true s with
            | Except.ok s1 => finishCreate (history_table_name live) live createTrg (some p) s1
            | Except.error e => Except.error e
          | _ :: _ :: _ => Except.error SynthErr.unsupportedInheritance
        else finishCreate (history_table_name live) live createTrg none s

/-- Transactional run of a synthesis: an aborted transaction leaves the
state unchanged. -/
def runSynth (W : World) (fuel : Nat) (live : String) (createTrg copyInh : Bool)
    (s : SynthState) : SynthState :=
  match create_history_table W fuel live createTrg copyInh s with
  | Except.ok s1 => s1
  | Except.error _ => s

/-! ## Teardown: `drop_history_table` (migration lines 227-254)

`DROP TABLE IF EXISTS <history> CASCADE` drops the history table and every
history table that (transitively) inherits from it; the closure is computed
by saturating over the inheritance links.  Then the trigger is dropped from
the live table (`IF EXISTS`) and the registry rows with this live name are
deleted.  Every statement tolerates absence, so the function is total. -/

def inheritanceStep (links : List (String × String)) (acc : List String) :
    List String :=
  acc ++ (links.filter (fun e => decide (e.2 ∈ acc ∧ e.1 ∉ acc))).map (fun e => e.1)

def cascadeClosure : Nat → List (String × String) → List String → List String
  | 0, _, acc => acc
  | Nat.succ n, links, acc => cascadeClosure n links (inheritanceStep links acc)

def drop_history_table (live : String) (s : SynthState) : SynthState :=
  let h := history_table_name live
  let dropped :=
    if h ∈ s.histTables then cascadeClosure s.histInherits.length s.histInherits [h]
    else []
  { registry := s.registry.filter (fun e => decide (e.2 ≠ live))
    histTables := s.histTables.filter (fun t => decide (t ∉ dropped))
    histInherits := s.histInherits.filter (fun e => decide (e.1 ∉ dropped ∧ e.2 ∉ dropped))
    triggers := s.triggers.filter (fun t => decide (t ≠ live)) }

/-! ## Lemmas about the synthesizer's state effects -/

def registryCountFor (s : SynthState) (h : String) : Nat :=
  (s.registry.filter (fun e => decide (e.1 = h))).length

def worldAB : World :=
  { liveExists := fun n => n == "a" || n == "b"
    parents := fun n => if n == "b" then ["a"] else [] }

def abInstalledState : SynthState :=
  { registry := [("a_history", "a"), ("b_history", "b")]
    histTables := ["a_history", "b_history"]
    histInherits := [("b_history", "a_history")]
    triggers := ["a", "b"] }

def worldQuote : World :=
  { liveExists := fun n => n == "foo" || n == "fo\"o"
    parents := fun _ => [] }

def registeredFooState : SynthState :=
  { registry := [("foo_history", "foo")]
    histTables := ["foo_history"]
    histInherits := []
    triggers := ["foo"] }

def worldMulti : World :=
  { liveExists := fun n => n == "c" || n == "p" || n == "q"
    parents := fun n => if n == "c" then ["p", "q"] else [] }

def fooInstalledState : SynthState :=
  { registry := [("foo_history", "foo")]
    histTables := ["foo_history"]
    histInherits := []
    triggers := ["foo"] }

def emptyDropState : SynthState := emptySynthState

theorem openCount_nil {α : Type} (k : Nat) : openCount ([] : List (HRow α)) k = 0 := rfl

theorem openCount_closeRowsOfId {α : Type} (rows : List (HRow α)) (i now k : Nat) :
    openCount (closeRowsOfId rows i now) k = if k = i then 0 else openCount rows k := by
  induction rows with
  | nil => simp [closeRowsOfId, openCount]
  | cons r t ih =>
    simp only [closeRowsOfId, List.map_cons, openCount, List.countP_cons] at ih ⊢
    by_cases hri : r.id = i <;> by_cases hki : k = i <;>
      · simp only [hri, hki, if_pos, if_neg, ite_true, ite_false] at ih ⊢
        simp_all [closeRowsOfId, openCount]
        try omega

theorem openCount_insertHistoryRow {α : Type} (rows : List (HRow α)) (n : LRow α)
    (now k : Nat) :
    openCount (insertHistoryRow rows n now) k
      = openCount rows k + (if n.id = k then 1 else 0) := by
  by_cases h : n.id = k <;> simp [insertHistoryRow, openCount, List.countP_append, h]

theorem liveIds_update {α : Type} (rows : List (LRow α)) (o n : LRow α) :
    liveIds (liveApply (.update o n) rows)
      = (liveIds rows).map (fun j => if j = o.id then n.id else j) := by
  simp only [liveIds, liveApply, List.map_map]
  apply List.map_congr_left
  intro r _
  by_cases h : r.id = o.id <;> simp [h]

theorem liveIds_delete_mem {α : Type} (rows : List (LRow α)) (o : LRow α) (k : Nat) :
    k ∈ liveIds (liveApply (.delete o) rows) ↔ k ∈ liveIds rows ∧ k ≠ o.id := by
  simp only [liveIds, liveApply, List.mem_map, List.mem_filter, decide_eq_true_eq]
  constructor
  · rintro ⟨r, ⟨hr, hne⟩, rfl⟩
    exact ⟨⟨r, hr, rfl⟩, hne⟩
  · rintro ⟨⟨r, hr, rfl⟩, hne⟩
    exact ⟨r, ⟨hr, hne⟩, rfl⟩

theorem capInv_step {α : Type} {s : CapState α} {op : TgOp α} {now : Nat}
    (hinv : CapInv s) (hv : ValidOp s op) : CapInv (capStep s op now) := by
  intro k
  match op with
  | .insert n =>
    have hids : liveIds (liveApply (.insert n) s.live) = liveIds s.live ++ [n.id] := by
      simp [liveIds, liveApply]
    simp only [capStep, update_history_of_row, hids]
    rw [openCount_insertHistoryRow]
    constructor
    · by_cases h : n.id = k
      · have h0 : openCount s.hist k = 0 := (hinv k).2 (h ▸ hv)
        simp [h, h0]
      · simpa [h] using (hinv k).1
    · intro hk
      simp only [List.mem_append, List.mem_singleton, not_or] at hk
      have h1 : openCount s.hist k = 0 := (hinv k).2 hk.1
      have h2 : ¬ n.id = k := fun hc => hk.2 hc.symm
      simp [h1, h2]
  | .update o n =>
    have hids := liveIds_update s.live o n
    have hmemn : n.id ∈ liveIds (liveApply (.update o n) s.live) := by
      rw [hids]
      have := List.mem_map_of_mem (fun j => if j = o.id then n.id else j) hv.1
      simpa using this
    simp only [capStep, update_history_of_row]
    rw [openCount_insertHistoryRow, openCount_closeRowsOfId]
    constructor
    · by_cases hnk : n.id = k
      · subst hnk
        by_cases hno : n.id = o.id
        · simp [hno]
        · have h0 : openCount s.hist n.id = 0 := by
            rcases hv.2 with h | h
            · exact absurd h hno
            · exact (hinv n.id).2 h
          simp [hno, h0]
      · by_cases hko : k = o.id
        · subst hko
          simp [hnk]
        · have := (hinv k).1
          simp only [hko, hnk, if_neg, ite_false]
          omega
    · intro hk
      have hnk : ¬ n.id = k := fun hc => hk (hc ▸ hmemn)
      by_cases hko : k = o.id
      · subst hko
        simp [hnk]
      · have hkl : k ∉ liveIds s.live := by
          intro hmem
          apply hk
          rw [hids]
          have := List.mem_map_of_mem (fun j => if j = o.id then n.id else j) hmem
          simpa [hko] using this
        have h0 : openCount s.hist k = 0 := (hinv k).2 hkl
        simp [hko, hnk, h0]
  | .delete o =>
    simp only [capStep, update_history_of_row]
    rw [openCount_closeRowsOfId]
    constructor
    · by_cases hko : k = o.id
      · simp [hko]
      · simpa [hko] using (hinv k).1
    · intro hk
      by_cases hko : k = o.id
      · simp [hko]
      · have hkl : k ∉ liveIds s.live := by
          intro hmem
          exact hk ((liveIds_delete_mem s.live o k).mpr ⟨hmem, hko⟩)
        simp [hko, (hinv k).2 hkl]

theorem capInv_init {α : Type} (live0 : List (LRow α)) :
    CapInv { live := live0, hist := [] } := by
  intro k
  simp [openCount]

theorem capInv_of_reach {α : Type} {live0 : List (LRow α)} {s : CapState α}
    (h : CapReach live0 s) : CapInv s := by
  induction h with
  | init => exact capInv_init live0
  | step _ hv ih => exact capInv_step ih hv

/-! ## Facts about `history_table_name` -/

theorem flatMapDouble_of_no_quote {l : List Char} (h : '"' ∉ l) :
    l.flatMap (fun c => if c = '"' then ['"', '"'] else [c]) = l := by
  induction l with
  | nil => rfl
  | cons c t ih =>
    simp only [List.mem_cons, not_or] at h
    have hc : ¬ c = '"' := fun hc => h.1 hc.symm
    simp [hc, ih h.2]

theorem no_quote_in_history_table_name (s : String) :
    '"' ∉ (history_table_name s).data := by
  simp [history_table_name, translateRemoveQuotes, List.mem_filter]

theorem history_table_name_of_no_quote {s : String} (h : '"' ∉ s.data) :
    history_table_name s = s ++ "_history" := by
  apply String.ext
  have hsuffix : "_history".data.filter (fun c => decide (c ≠ '"')) = "_history".data := by
    decide
  have happ : (quoteIdent s ++ "_history").data = (quoteIdent s).data ++ "_history".data := by
    cases hqi : quoteIdent s with
    | mk l => rfl
  have happ2 : (s ++ "_history").data = s.data ++ "_history".data := by
    cases s with
    | mk l => rfl
  rw [happ2]
  show (quoteIdent s ++ "_history").data.filter (fun c => decide (c ≠ '"'))
      = s.data ++ "_history".data
  rw [happ, List.filter_append, hsuffix]
  congr 1
  by_cases hs : isSafeIdent s
  · rw [quoteIdent, if_pos hs]
    exact List.filter_eq_self.mpr (fun c hc => by
      simp only [decide_eq_true_eq]
      exact fun hq => h (hq ▸ hc))
  · rw [quoteIdent, if_neg hs]
    have hdata : ("\"" ++ String.mk (s.data.flatMap
        (fun c => if c = '"' then ['"', '"'] else [c])) ++ "\"").data
        = '"' :: s.data.flatMap (fun c => if c = '"' then ['"', '"'] else [c]) ++ ['"'] := by
      rfl
    rw [hdata, flatMapDouble_of_no_quote h]
    have hq1 : List.filter (fun c => decide (c ≠ '"')) ['"'] = [] := by decide
    rw [List.filter_append, List.filter_cons, if_neg (by decide), hq1, List.append_nil]
    exact List.filter_eq_self.mpr (fun c hc => by
      simp only [decide_eq_true_eq]
      exact fun hq => h (hq ▸ hc))

theorem history_table_name_ne_self (s : String) : history_table_name s ≠ s := by
  by_cases hq : '"' ∈ s.data
  · intro heq
    exact no_quote_in_history_table_name s (by rw [heq]; exact hq)
  · rw [history_table_name_of_no_quote hq]
    intro heq
    have hlen := congrArg String.length heq
    rw [String.length_append] at hlen
    have h8 : "_history".length = 8 := rfl
    omega

theorem registryCountFor_eq_zero {s : SynthState} {h : String}
    (hreg : registeredB s h = false) : registryCountFor s h = 0 := by
  simp only [registeredB, List.any_eq_false, decide_eq_true_eq] at hreg
  simp only [registryCountFor, List.length_eq_zero]
  exact List.filter_eq_nil_iff.mpr (fun e he => by simp [hreg e he])

theorem tableCreateStep_mem (h : String) (pinfo : Option String) (s : SynthState) :
    h ∈ (tableCreateStep h pinfo s).histTables := by
  unfold tableCreateStep
  split
  · assumption
  · cases pinfo <;> simp

theorem tableCreateStep_nodup {h : String} {pinfo : Option String} {s : SynthState}
    (hn : s.histTables.Nodup) : (tableCreateStep h pinfo s).histTables.Nodup := by
  unfold tableCreateStep
  split
  · exact hn
  · cases pinfo <;> simp_all [List.nodup_append]

theorem tableCreateStep_registry (h : String) (pinfo : Option String) (s : SynthState) :
    (tableCreateStep h pinfo s).registry = s.registry := by
  unfold tableCreateStep
  split
  · rfl
  · cases pinfo <;> rfl

/-- What a successful trigger/registration phase guarantees. -/
theorem finishCreate_ok_spec {h live : String} {pinfo : Option String}
    {s s1 : SynthState}
    (hrun : finishCreate h live true pinfo s = Except.ok s1) :
    registryCountFor s1 h = 1 ∧ registeredB s1 h = true ∧
      h ∈ s1.histTables ∧ (s.histTables.Nodup → s1.histTables.Nodup) := by
  simp only [finishCreate, triggerAndRegisterStep, if_pos] at hrun
  split at hrun
  · exact absurd hrun (by simp)
  · split at hrun
    · exact absurd hrun (by simp)
    · rename_i hntrg hnreg
      cases hrun
      have h2 : registeredB (tableCreateStep h pinfo s) h = false :=
        Bool.eq_false_iff.mpr hnreg
      have hnil : (tableCreateStep h pinfo s).registry.filter
          (fun e => decide (e.1 = h)) = [] :=
        List.length_eq_zero.mp (registryCountFor_eq_zero h2)
      refine ⟨?_, ?_, ?_, ?_⟩
      · simp [registryCountFor, List.filter_append, hnil]
      · simp [registeredB, List.any_append]
      · exact tableCreateStep_mem h pinfo s
      · exact fun hn => tableCreateStep_nodup hn

theorem finishCreate_nodup {h live : String} {ct : Bool} {pinfo : Option String}
    {s s1 : SynthState}
    (hrun : finishCreate h live ct pinfo s = Except.ok s1)
    (hn : s.histTables.Nodup) : s1.histTables.Nodup := by
  simp only [finishCreate, triggerAndRegisterStep] at hrun
  split at hrun
  · split at hrun
    · exact absurd hrun (by simp)
    · split at hrun
      · exact absurd hrun (by simp)
      · cases hrun; exact tableCreateStep_nodup hn
  · cases hrun; exact tableCreateStep_nodup hn

theorem create_history_table_nodup (W : World) :
    ∀ (fuel : Nat) (live : String) (ct ci : Bool) (s s1 : SynthState),
      create_history_table W fuel live ct ci s = Except.ok s1 →
      s.histTables.Nodup → s1.histTables.Nodup := by
  intro fuel
  induction fuel with
  | zero => intro live ct ci s s1 h; simp [create_history_table] at h
  | succ n ih =>
    intro live ct ci s s1 h hn
    unfold create_history_table at h
    split at h
    · exact absurd h (by simp)
    · split at h
      · cases h; exact hn
      · split at h
        · split at h
          · exact finishCreate_nodup h hn
          · split at h
            · rename_i s1' hrec
              exact finishCreate_nodup h (ih _ true true s s1' hrec hn)
            · exact absurd h (by simp)
          · exact absurd h (by simp)
        · exact finishCreate_nodup h hn

/-! ## Lemmas about teardown's cascade -/

theorem mem_inheritanceStep_of_mem {links : List (String × String)}
    {acc : List String} {a : String} (h : a ∈ acc) : a ∈ inheritanceStep links acc :=
  List.mem_append_left _ h

theorem mem_cascadeClosure_of_mem :
    ∀ (n : Nat) (links : List (String × String)) (acc : List String) (a : String),
      a ∈ acc → a ∈ cascadeClosure n links acc := by
  intro n
  induction n with
  | zero => intro links acc a h; exact h
  | succ m ih =>
    intro links acc a h
    exact ih links (inheritanceStep links acc) a (mem_inheritanceStep_of_mem h)

theorem child_mem_inheritanceStep {links : List (String × String)}
    {acc : List String} {c p : String} (hl : (c, p) ∈ links) (hp : p ∈ acc) :
    c ∈ inheritanceStep links acc := by
  by_cases hc : c ∈ acc
  · exact mem_inheritanceStep_of_mem hc
  · apply List.mem_append_right
    exact List.mem_map.mpr ⟨(c, p), List.mem_filter.mpr ⟨hl, by simp [hp, hc]⟩, rfl⟩

theorem child_mem_cascadeClosure {links : List (String × String)}
    {acc : List String} {c p : String} {n : Nat}
    (hl : (c, p) ∈ links) (hp : p ∈ acc) :
    c ∈ cascadeClosure (n + 1) links acc :=
  mem_cascadeClosure_of_mem n links _ c (child_mem_inheritanceStep hl hp)

/-- C1 (claim refuted by the code, evidence for the code_bug verdict): after
`Create id=1 at t=0` and `Modify id=1 at t=1` the history holds a closed row
`[0,1)` and an open row `[1,—)`; a further `Modify id=1 at t=2` is supposed to
close only the open row, but `update_history_of_row` rewrites every row with
`id = 1`: the already-closed row `(1, 10, [0,1))` is changed to `(1, 10, [0,2))`,
which overlaps the new `[1,2)` row. -/
theorem c1_modify_rewrites_already_closed_rows :
    (update_history_of_row (TgOp.update (LRow.mk 1 11) (LRow.mk 1 12)) 2
        [HRow.mk 1 10 0 (some 1), HRow.mk 1 11 1 none]).1
      = [HRow.mk 1 10 0 (some 2), HRow.mk 1 11 1 (some 2), HRow.mk 1 12 2 none]
    ∧ HRow.mk 1 10 0 (some 1) ∉
        (update_history_of_row (TgOp.update (LRow.mk 1 11) (LRow.mk 1 12)) 2
          [HRow.mk 1 10 0 (some 1), HRow.mk 1 11 1 none]).1 := by
  exact ⟨rfl, by decide⟩

/-- C2: starting from an empty history and any initial live rows, every state
reachable by primary-key-respecting Create/Modify/Remove mutations has at most
one open history row per identity (invariant I1 / property P2). -/
theorem c2_at_most_one_open_interval {α : Type} {live0 : List (LRow α)}
    {s : CapState α} (h : CapReach live0 s) (k : Nat) :
    openCount s.hist k ≤ 1 :=
  (capInv_of_reach h k).1

theorem c2_at_most_one_open_interval_witness :
    openCount ((capStep (CapState.mk ([] : List (LRow Nat)) [])
        (TgOp.insert (LRow.mk 1 5)) 0).hist) 1 ≤ 1 :=
  c2_at_most_one_open_interval
    (CapReach.step CapReach.init (by simp [ValidOp, liveIds])) 1

/-- C7: a Remove never inserts a history row (the history's length is
unchanged) and leaves the removed identity with no open interval, so a
current-state query reports absence. -/
theorem c7_remove_is_close_only {α : Type} (rows : List (HRow α))
    (old : LRow α) (now : Nat) :
    (update_history_of_row (TgOp.delete old) now rows).1.length = rows.length
    ∧ openCount (update_history_of_row (TgOp.delete old) now rows).1 old.id = 0 := by
  constructor
  · simp [update_history_of_row, closeRowsOfId]
  · simp only [update_history_of_row]
    rw [openCount_closeRowsOfId]
    simp

/-- C10: for every operation kind and row images, firing the capture trigger
(installed with `TG_ARGV[1] = history_table_name t`) leaves every live table
exactly as the mutation alone would, and the trigger function returns NULL;
the history table name never coincides with the live table name. -/
theorem c10_capture_never_touches_live {α : Type} (db : Database α)
    (t : String) (op : TgOp α) (now : Nat) :
    (mutate db t op now (some (history_table_name t))).liveTables
        = (mutate db t op now none).liveTables
    ∧ (fireCapture (applyLiveMutation db t op) (history_table_name t) op now).2 = none
    ∧ history_table_name t ≠ t :=
  ⟨rfl, rfl, history_table_name_ne_self t⟩

/-- Shared helper: a registered history name short-circuits synthesis into an
idempotent success, regardless of which live table the registration is for. -/
theorem create_ok_of_registered {W : World} {fuel : Nat} {live : String}
    {ct ci : Bool} {s : SynthState}
    (hfuel : 0 < fuel) (hlive : W.liveExists live = true)
    (hreg : registeredB s (history_table_name live) = true) :
    create_history_table W fuel live ct ci s = Except.ok s := by
  obtain ⟨n, rfl⟩ : ∃ n, fuel = n + 1 := ⟨fuel - 1, by omega⟩
  unfold create_history_table
  simp [hlive, hreg]

/-- C3 (claim refuted by the code, evidence for the code_bug verdict):
synthesizing `b`, whose single parent is `a`, from an empty state also
installs the capture trigger and the registry entry on `a`, because the
source's recursive call passes `create_triggers = TRUE` (line 121) although
its own comments say the parent gets no triggers. -/
theorem c3_recursion_installs_capture_on_parent :
    create_history_table worldAB 10 "b" true true emptySynthState
      = Except.ok abInstalledState
    ∧ "a" ∈ abInstalledState.triggers
    ∧ ("a_history", "a") ∈ abInstalledState.registry := by
  refine ⟨rfl, by decide, by decide⟩

/-- C4 counterexample: the live names `foo` and `fo"o` derive the same history
name `foo_history`; with `foo` registered, synthesizing `fo"o` — same
history name, different live name — does not fail with any AlreadyRegistered
error but returns idempotent success with the state unchanged. -/
theorem c4_counterexample_collision_is_silent_success :
    history_table_name "fo\"o" = "foo_history"
    ∧ ("fo\"o" : String) ≠ "foo"
    ∧ create_history_table worldQuote 5 "fo\"o" true true registeredFooState
        = Except.ok registeredFooState := by
  refine ⟨by decide, by decide, rfl⟩

/-- C4 amended: registration is keyed on the history name alone; whenever the
derived history name is already registered — for the same or for a different
live name — `create_history_table` returns success and changes nothing, and no
AlreadyRegistered-style error is raised on this path. -/
theorem c4_amended_registered_name_short_circuits (W : World) (fuel : Nat)
    (live : String) (ct ci : Bool) (s : SynthState)
    (hfuel : 0 < fuel) (hlive : W.liveExists live = true)
    (hreg : registeredB s (history_table_name live) = true) :
    create_history_table W fuel live ct ci s = Except.ok s :=
  create_ok_of_registered hfuel hlive hreg

theorem c4_amended_witness :
    create_history_table worldQuote 3 "fo\"o" true true registeredFooState
      = Except.ok registeredFooState :=
  c4_amended_registered_name_short_circuits worldQuote 3 "fo\"o" true true
    registeredFooState (by decide) (by decide) (by decide)

/-- C6: when the introspection view reports more than one parent for a live
table that is not yet registered, synthesis fails with the
UnsupportedInheritance error (`TOO_MANY_ROWS`, lines 113-115) and the aborted
transaction commits no state at all. -/
theorem c6_multi_parent_aborts (W : World) (fuel : Nat) (live : String)
    (ct : Bool) (s : SynthState) (p1 p2 : String) (rest : List String)
    (hfuel : 0 < fuel) (hlive : W.liveExists live = true)
    (hreg : registeredB s (history_table_name live) = false)
    (hpar : W.parents live = p1 :: p2 :: rest) :
    create_history_table W fuel live ct true s
        = Except.error SynthErr.unsupportedInheritance
    ∧ runSynth W fuel live ct true s = s := by
  obtain ⟨n, rfl⟩ : ∃ n, fuel = n + 1 := ⟨fuel - 1, by omega⟩
  have h1 : create_history_table W (n + 1) live ct true s
      = Except.error SynthErr.unsupportedInheritance := by
    unfold create_history_table
    simp [hlive, hreg, hpar]
  exact ⟨h1, by simp [runSynth, h1]⟩

theorem c6_multi_parent_aborts_witness :
    create_history_table worldMulti 5 "c" true true emptySynthState
        = Except.error SynthErr.unsupportedInheritance
    ∧ runSynth worldMulti 5 "c" true true emptySynthState = emptySynthState :=
  c6_multi_parent_aborts worldMulti 5 "c" true emptySynthState "p" "q" []
    (by decide) (by decide) (by decide) (by decide)

/-- C5: synthesizing a not-yet-registered live table successfully yields
exactly one registry entry and exactly one history table for it, and a second
synthesis of the same live table is an error-free no-op. -/
theorem c5_install_idempotent (W : World) (fuel : Nat) (live : String)
    (s s1 : SynthState)
    (hnodup : s.histTables.Nodup)
    (hreg : registeredB s (history_table_name live) = false)
    (hrun : create_history_table W fuel live true true s = Except.ok s1) :
    registryCountFor s1 (history_table_name live) = 1
    ∧ s1.histTables.count (history_table_name live) = 1
    ∧ create_history_table W fuel live true true s1 = Except.ok s1 := by
  obtain ⟨n, rfl⟩ : ∃ n, fuel = n + 1 := by
    cases fuel with
    | zero => simp [create_history_table] at hrun
    | succ n => exact ⟨n, rfl⟩
  have hlive : W.liveExists live = true := by
    cases hb : W.liveExists live
    · simp [create_history_table, hb] at hrun
    · rfl
  have hmain : registryCountFor s1 (history_table_name live) = 1
      ∧ registeredB s1 (history_table_name live) = true
      ∧ history_table_name live ∈ s1.histTables
      ∧ s1.histTables.Nodup := by
    unfold create_history_table at hrun
    split at hrun
    · exact absurd hrun (by simp)
    · split at hrun
      · rename_i hr
        rw [hreg] at hr
        exact absurd hr (by simp)
      · rw [if_pos rfl] at hrun
        split at hrun
        · have hspec := finishCreate_ok_spec hrun
          exact ⟨hspec.1, hspec.2.1, hspec.2.2.1, hspec.2.2.2 hnodup⟩
        · split at hrun
          · rename_i s1' hrec
            have hnd1 : s1'.histTables.Nodup :=
              create_history_table_nodup W n _ true true s s1' hrec hnodup
            have hspec := finishCreate_ok_spec hrun
            exact ⟨hspec.1, hspec.2.1, hspec.2.2.1, hspec.2.2.2 hnd1⟩
          · exact absurd hrun (by simp)
        · exact absurd hrun (by simp)
  refine ⟨hmain.1, ?_, ?_⟩
  · exact List.count_eq_one_of_mem hmain.2.2.2 hmain.2.2.1
  · exact create_ok_of_registered (Nat.succ_pos n) hlive hmain.2.1

theorem c5_install_idempotent_witness :
    registryCountFor fooInstalledState (history_table_name "foo") = 1
    ∧ fooInstalledState.histTables.count (history_table_name "foo") = 1
    ∧ create_history_table worldQuote 2 "foo" true true fooInstalledState
        = Except.ok fooInstalledState :=
  c5_install_idempotent worldQuote 2 "foo" emptySynthState fooInstalledState
    (by decide) (by decide) (by rfl)

/-- C8 counterexample: with `b_history` inheriting from `a_history` (the state
produced by synthesizing `b` with parent `a`), `drop_history_table('a')`
leaves `b`'s registry entry and `b`'s capture trigger in place, contradicting
the claim that none of B's structures, hooks, or registry entries remain. -/
theorem c8_counterexample_child_hook_survives_parent_drop :
    create_history_table worldAB 10 "b" true true emptySynthState
        = Except.ok abInstalledState
    ∧ ("b_history", "b") ∈ (drop_history_table "a" abInstalledState).registry
    ∧ "b" ∈ (drop_history_table "a" abInstalledState).triggers := by
  refine ⟨rfl, by decide, by decide⟩

/-- C8 amended: after `drop_history(A)` where B's history inherits from A's,
A's history table, trigger, and registry entries are gone and B's history
table is dropped by the cascade, but B's trigger and registry entry remain;
a subsequent `drop_history(B)` succeeds and removes them, and dropping a live
table with no history structures, trigger, or registry entries is a no-op. -/
theorem c8_amended_cascade_drops_tables_only
    (A B l : String) (s t : SynthState)
    (hAB : B ≠ A)
    (htab : history_table_name A ∈ s.histTables)
    (hlink : (history_table_name B, history_table_name A) ∈ s.histInherits)
    (hBreg : (history_table_name B, B) ∈ s.registry)
    (hBtrig : B ∈ s.triggers)
    (hl1 : history_table_name l ∉ t.histTables)
    (hl2 : l ∉ t.triggers)
    (hl3 : t.registry.all (fun e => decide (e.2 ≠ l)) = true) :
    history_table_name A ∉ (drop_history_table A s).histTables
    ∧ history_table_name B ∉ (drop_history_table A s).histTables
    ∧ A ∉ (drop_history_table A s).triggers
    ∧ (drop_history_table A s).registry.all (fun e => decide (e.2 ≠ A)) = true
    ∧ (history_table_name B, B) ∈ (drop_history_table A s).registry
    ∧ B ∈ (drop_history_table A s).triggers
    ∧ B ∉ (drop_history_table B (drop_history_table A s)).triggers
    ∧ (drop_history_table B (drop_history_table A s)).registry.all
        (fun e => decide (e.2 ≠ B)) = true
    ∧ drop_history_table l t = t := by
  have hdropped : (if history_table_name A ∈ s.histTables then
        cascadeClosure s.histInherits.length s.histInherits [history_table_name A]
      else []) = cascadeClosure s.histInherits.length s.histInherits
        [history_table_name A] := if_pos htab
  have hA_in : history_table_name A
      ∈ cascadeClosure s.histInherits.length s.histInherits [history_table_name A] :=
    mem_cascadeClosure_of_mem _ _ _ _ (by simp)
  have hB_in : history_table_name B
      ∈ cascadeClosure s.histInherits.length s.histInherits [history_table_name A] := by
    obtain ⟨m, hm⟩ : ∃ m, s.histInherits.length = m + 1 := by
      have := List.length_pos.mpr (List.ne_nil_of_mem hlink)
      exact ⟨s.histInherits.length - 1, by omega⟩
    rw [hm]
    exact child_mem_cascadeClosure hlink (by simp)
  refine ⟨?_, ?_, ?_, ?_, ?_, ?_, ?_, ?_, ?_⟩
  · intro hmem
    simp only [drop_history_table, hdropped, List.mem_filter, decide_eq_true_eq] at hmem
    exact hmem.2 hA_in
  · intro hmem
    simp only [drop_history_table, hdropped, List.mem_filter, decide_eq_true_eq] at hmem
    exact hmem.2 hB_in
  · intro hmem
    simp only [drop_history_table, List.mem_filter, decide_eq_true_eq] at hmem
    exact hmem.2 rfl
  · simp only [drop_history_table, List.all_eq_true]
    intro e he
    exact (List.mem_filter.mp he).2
  · simp only [drop_history_table, List.mem_filter, decide_eq_true_eq]
    exact ⟨hBreg, hAB⟩
  · simp only [drop_history_table, List.mem_filter, decide_eq_true_eq]
    exact ⟨hBtrig, hAB⟩
  · intro hmem
    simp only [drop_history_table, List.mem_filter, decide_eq_true_eq] at hmem
    exact hmem.2 rfl
  · simp only [drop_history_table, List.all_eq_true]
    intro e he
    exact (List.mem_filter.mp he).2
  · have hreg : t.registry.filter (fun e => decide (e.2 ≠ l)) = t.registry :=
      List.filter_eq_self.mpr (List.all_eq_true.mp hl3)
    have htrg : t.triggers.filter (fun x => decide (x ≠ l)) = t.triggers :=
      List.filter_eq_self.mpr (fun x hx => by
        simp only [decide_eq_true_eq]
        exact fun hxl => hl2 (hxl ▸ hx))
    cases t with
    | mk reg ht hi tr =>
      simp only [drop_history_table, if_neg hl1, SynthState.mk.injEq]
      refine ⟨hreg, ?_, ?_, htrg⟩
      · exact List.filter_eq_self.mpr (fun x hx => by simp)
      · exact List.filter_eq_self.mpr (fun x hx => by simp)

theorem c8_amended_witness :
    history_table_name "a" ∉ (drop_history_table "a" abInstalledState).histTables
    ∧ history_table_name "b" ∉ (drop_history_table "a" abInstalledState).histTables
    ∧ "a" ∉ (drop_history_table "a" abInstalledState).triggers
    ∧ (drop_history_table "a" abInstalledState).registry.all
        (fun e => decide (e.2 ≠ "a")) = true
    ∧ (history_table_name "b", "b") ∈ (drop_history_table "a" abInstalledState).registry
    ∧ "b" ∈ (drop_history_table "a" abInstalledState).triggers
    ∧ "b" ∉ (drop_history_table "b" (drop_history_table "a" abInstalledState)).triggers
    ∧ (drop_history_table "b" (drop_history_table "a" abInstalledState)).registry.all
        (fun e => decide (e.2 ≠ "b")) = true
    ∧ drop_history_table "x" emptyDropState = emptyDropState :=
  c8_amended_cascade_drops_tables_only "a" "b" "x" abInstalledState emptyDropState
    (by decide) (by decide) (by decide) (by decide) (by decide)
    (by decide) (by decide) (by decide)
